import Mathlib

/-!
# apoc_pkg: PID waypoint flight and PID parameter initialisation

A shallow embedding of two member functions of the `apoc` class:

* `apoc::flytoPIDcorrect` (lib/pid_flyab.cpp): the armed check, the yaw
  normalisation, and the control loop that polls, computes and dispatches;
* `apoc::initPIDControllers` (lib/pidparams.cpp): defaults, overrides read
  from the parameter server, and the four `setPIDctrlParams` calls.

Scalars are read over exact arithmetic: every definition is generic in a
linearly ordered field with a floor function, so that it evaluates on `ℚ`
and can be stated on `ℝ` with `Real.pi` for the constant `M_PI`.
-/

namespace apoc

/-! ## Yaw normalisation (pid_flyab.cpp, lines 56-58, 101-103, 117-119) -/

section Yaw

variable {α : Type} [LinearOrderedField α] [FloorRing α]

/-- Rounding toward zero: the integer quotient that C `fmod` removes. -/
def truncToInt (q : α) : ℤ :=
  if 0 ≤ q then ⌊q⌋ else ⌈q⌉

/-- C `fmod x y` over exact arithmetic: `x - n * y` where `n` is `x / y`
rounded toward zero, so the result carries the sign of `x`. -/
def fmod (x y : α) : α :=
  x - (truncToInt (x / y) : α) * y

/-- The three-line normalisation the source repeats for the target yaw, the
current yaw and the intermediate yaw:
`n = fmod(yaw, 2 * M_PI); if (n > M_PI) n -= 2 * M_PI; else if (n < -M_PI) n += 2 * M_PI;`. -/
def normalizeYaw (M_PI yaw : α) : α :=
  let n := fmod yaw (2 * M_PI)
  if n > M_PI then n - 2 * M_PI
  else if n < -M_PI then n + 2 * M_PI
  else n

end Yaw

/-! ## Collaborators of `flytoPIDcorrect` that are declared outside the sources -/

/-- The four axis controllers of one flight request. -/
inductive Axis
  | x
  | y
  | z
  | yaw
deriving DecidableEq

/-- The seven arguments shared by the `pidctrl` constructor and by
`setPIDctrlParams`, in the order the source passes them. -/
structure PIDParams (α : Type) where
  kp : α
  ki : α
  kd : α
  out_min : α
  out_max : α
  int_min : α
  int_max : α
deriving DecidableEq

/-- The members of class `pidctrl` that `flytoPIDcorrect` calls. The class is
declared in a header that is not among the sources, so the loop takes its
three members as parameters; `C` is the type of a controller's state. -/
structure PidCtrlClass (α C : Type) where
  /-- The constructor `pidctrl(kp, ki, kd, out_min, out_max, int_min, int_max)`. -/
  construct : PIDParams α → C
  /-- The member `setSetpoint(value)`. -/
  setSetpoint : C → α → C
  /-- The member `compute(measurement)`: the returned delta and the new state. -/
  compute : C → α → α × C

/-- The macros of `apoc.h` that `flytoPIDcorrect` reads; the header is not
among the sources, so their values are parameters. -/
structure Macros (α : Type) where
  /-- The macros `PID_X_KP` to `PID_X_INT_MAX`. -/
  PID_X : PIDParams α
  /-- The macros `PID_Y_KP` to `PID_Y_INT_MAX`. -/
  PID_Y : PIDParams α
  /-- The macros `PID_Z_KP` to `PID_Z_INT_MAX`. -/
  PID_Z : PIDParams α
  /-- The macros `PID_YAW_KP` to `PID_YAW_INT_MAX`. -/
  PID_YAW : PIDParams α
  PID_CONTROL_RATE : α
  PID_FLIGHT_TIMEOUT : α

/-- A call that `flytoPIDcorrect` makes on a collaborator, in program order.
Logging (`ROS_INFO`, `ROS_WARN`, `ROS_DEBUG_STREAM`, `ROS_ERROR`) is left out:
it has no effect on control flow. -/
inductive Event (α : Type)
  | setSetpoint (a : Axis) (value : α)
  | reachCheck (x y z yaw : α)
  | compute (a : Axis) (measurement : α)
  | flytoAbsolute (x y z yaw : α)
  | durationSleep (seconds : α)
  | spinOnce
  | rateSleep (hz : α)
deriving DecidableEq

/-- What one pass through the `while` statement observes from outside the
function. Each field is read only if control reaches the line that reads it. -/
structure CycleObs (α : Type) where
  /-- The value of `ros::ok()` in the loop condition (line 71). -/
  ok : Bool
  /-- The value of `(ros::Time::now() - start_time).toSec()` (line 73). -/
  elapsed : α
  /-- The value returned by `reachCheck` (line 79). -/
  reached : Bool
  /-- The field `current_position.pose.position.x` (line 86). -/
  x : α
  /-- The field `current_position.pose.position.y` (line 87). -/
  y : α
  /-- The field `current_position.pose.position.z` (line 88). -/
  z : α
  /-- The yaw that `getRPY` extracts from the current orientation (line 99). -/
  rpy_yaw : α
  /-- The value returned by `flytoAbsolute` (line 122). -/
  dispatched : Bool
deriving DecidableEq

/-- The local controllers `pid_x`, `pid_y`, `pid_z`, `pid_yaw`. -/
structure Controllers (C : Type) where
  pid_x : C
  pid_y : C
  pid_z : C
  pid_yaw : C
deriving DecidableEq

/-- One pass through the `while` statement: the value returned by the
function if the pass returns, the controllers after the pass, the calls made. -/
structure CycleRun (α C : Type) where
  ret : Option Bool
  pids : Controllers C
  trace : List (Event α)

/-- The loop over a finite list of observations: `result` is `none` when the
observations run out while the loop is still going. -/
structure LoopRun (α C : Type) where
  result : Option Bool
  pids : Controllers C
  trace : List (Event α)

/-- A call of `flytoPIDcorrect`: `pids` is `none` when the function returned
before the controllers were constructed. -/
structure Run (α C : Type) where
  result : Option Bool
  pids : Option (Controllers C)
  trace : List (Event α)

/-! ## `apoc::flytoPIDcorrect` (pid_flyab.cpp) -/

section Flight

variable {α C : Type} [LinearOrderedField α] [FloorRing α]

/-- One evaluation of the loop condition and, if it holds, of the loop body
(lines 71-141). A false `ros::ok()` leaves the loop and reaches the final
`return false` (line 145). -/
def cycle (api : PidCtrlClass α C) (M_PI : α) (mc : Macros α)
    (fly_pid_x fly_pid_y fly_pid_z normalized_yaw : α)
    (pids : Controllers C) (o : CycleObs α) : CycleRun α C :=
  if !o.ok then
    ⟨some false, pids, []⟩
  else if o.elapsed > mc.PID_FLIGHT_TIMEOUT then
    ⟨some false, pids, []⟩
  else if o.reached then
    ⟨some true, pids, [Event.reachCheck fly_pid_x fly_pid_y fly_pid_z normalized_yaw]⟩
  else
    let current_x := o.x
    let current_y := o.y
    let current_z := o.z
    let current_yaw := normalizeYaw M_PI o.rpy_yaw
    let rx := api.compute pids.pid_x current_x
    let ry := api.compute pids.pid_y current_y
    let rz := api.compute pids.pid_z current_z
    let ryaw := api.compute pids.pid_yaw current_yaw
    let delta_x := rx.1
    let delta_y := ry.1
    let delta_z := rz.1
    let delta_yaw := ryaw.1
    let via_x := current_x + delta_x
    let via_y := current_y + delta_y
    let via_z := current_z + delta_z
    let via_yaw := normalizeYaw M_PI (current_yaw + delta_yaw)
    let pids1 : Controllers C := ⟨rx.2, ry.2, rz.2, ryaw.2⟩
    let calls : List (Event α) :=
      [Event.reachCheck fly_pid_x fly_pid_y fly_pid_z normalized_yaw,
       Event.compute Axis.x current_x,
       Event.compute Axis.y current_y,
       Event.compute Axis.z current_z,
       Event.compute Axis.yaw current_yaw,
       Event.flytoAbsolute via_x via_y via_z via_yaw]
    if !o.dispatched then
      ⟨none, pids1, calls ++ [Event.durationSleep 0.1, Event.rateSleep mc.PID_CONTROL_RATE]⟩
    else
      ⟨none, pids1, calls ++ [Event.spinOnce, Event.rateSleep mc.PID_CONTROL_RATE]⟩

/-- The `while` statement run over a list of observations, one per pass. -/
def loop (api : PidCtrlClass α C) (M_PI : α) (mc : Macros α)
    (fly_pid_x fly_pid_y fly_pid_z normalized_yaw : α)
    (pids : Controllers C) : List (CycleObs α) → LoopRun α C
  | [] => ⟨none, pids, []⟩
  | o :: os =>
    let c := cycle api M_PI mc fly_pid_x fly_pid_y fly_pid_z normalized_yaw pids o
    match c.ret with
    | some b => ⟨some b, c.pids, c.trace⟩
    | none =>
      let r := loop api M_PI mc fly_pid_x fly_pid_y fly_pid_z normalized_yaw c.pids os
      ⟨r.result, r.pids, c.trace ++ r.trace⟩

/-- The function `apoc::flytoPIDcorrect`: `armed` is `current_state.armed` at
entry, `obs` what the successive passes of the loop observe. -/
def flytoPIDcorrect (api : PidCtrlClass α C) (M_PI : α) (mc : Macros α) (armed : Bool)
    (fly_pid_x fly_pid_y fly_pid_z fly_pid_yaw : α) (obs : List (CycleObs α)) : Run α C :=
  if !armed then
    ⟨some false, none, []⟩
  else
    let pid_x := api.construct mc.PID_X
    let pid_y := api.construct mc.PID_Y
    let pid_z := api.construct mc.PID_Z
    let pid_yaw := api.construct mc.PID_YAW
    let pid_x := api.setSetpoint pid_x fly_pid_x
    let pid_y := api.setSetpoint pid_y fly_pid_y
    let pid_z := api.setSetpoint pid_z fly_pid_z
    let normalized_yaw := normalizeYaw M_PI fly_pid_yaw
    let pid_yaw := api.setSetpoint pid_yaw normalized_yaw
    let r := loop api M_PI mc fly_pid_x fly_pid_y fly_pid_z normalized_yaw
      ⟨pid_x, pid_y, pid_z, pid_yaw⟩ obs
    ⟨r.result, some r.pids,
      [Event.setSetpoint Axis.x fly_pid_x,
       Event.setSetpoint Axis.y fly_pid_y,
       Event.setSetpoint Axis.z fly_pid_z,
       Event.setSetpoint Axis.yaw normalized_yaw] ++ r.trace⟩

/-- The calls of `flytoAbsolute` in a trace. -/
def dispatches (t : List (Event α)) : List (Event α) :=
  t.filter fun e => match e with
    | Event.flytoAbsolute _ _ _ _ => true
    | _ => false

/-- The calls of `reachCheck` in a trace. -/
def reachChecks (t : List (Event α)) : List (Event α) :=
  t.filter fun e => match e with
    | Event.reachCheck _ _ _ _ => true
    | _ => false

/-- The calls of `compute` in a trace. -/
def computes (t : List (Event α)) : List (Event α) :=
  t.filter fun e => match e with
    | Event.compute _ _ => true
    | _ => false

/-- The calls of `setSetpoint` in a trace. -/
def setpointCalls (t : List (Event α)) : List (Event α) :=
  t.filter fun e => match e with
    | Event.setSetpoint _ _ => true
    | _ => false

end Flight

/-! ## `apoc::initPIDControllers` (pidparams.cpp) -/

section Params

variable {α : Type} [LinearOrderedField α]

/-- The call `ros::param::get(key, var)` on a `float` variable: the variable
takes the stored value when the parameter server holds the key and keeps its
value otherwise. The server is a partial map from keys to values. -/
def param_get (server : String → Option α) (key : String) (var : α) : α :=
  match server key with
  | some v => v
  | none => var

/-- The function `apoc::initPIDControllers`: the four `setPIDctrlParams`
calls it makes, in program order, each with the controller it is made on and
its seven arguments. The function is `void`, has no `return` and no `throw`,
so every call of it reaches all four. -/
def initPIDControllers (server : String → Option α) : List (Axis × PIDParams α) :=
  let kp_x : α := 0.8
  let ki_x : α := 0.2
  let kd_x : α := 0.1
  let out_min_x : α := -0.5
  let out_max_x : α := 0.5
  let int_min_x : α := -0.3
  let int_max_x : α := 0.3
  let kp_y : α := 0.8
  let ki_y : α := 0.2
  let kd_y : α := 0.1
  let out_min_y : α := -0.5
  let out_max_y : α := 0.5
  let int_min_y : α := -0.3
  let int_max_y : α := 0.3
  let kp_z : α := 1.0
  let ki_z : α := 0.3
  let kd_z : α := 0.15
  let out_min_z : α := -0.3
  let out_max_z : α := 0.3
  let int_min_z : α := -0.2
  let int_max_z : α := 0.2
  let kp_yaw : α := 0.6
  let ki_yaw : α := 0.1
  let kd_yaw : α := 0.05
  let out_min_yaw : α := -0.2
  let out_max_yaw : α := 0.2
  let int_min_yaw : α := -0.1
  let int_max_yaw : α := 0.1
  let kp_x := param_get server "/apoc/pid/x/kp" kp_x
  let ki_x := param_get server "/apoc/pid/x/ki" ki_x
  let kd_x := param_get server "/apoc/pid/x/kd" kd_x
  let out_min_x := param_get server "/apoc/pid/x/out_min" out_min_x
  let out_max_x := param_get server "/apoc/pid/x/out_max" out_max_x
  let int_min_x := param_get server "/apoc/pid/x/int_min" int_min_x
  let int_max_x := param_get server "/apoc/pid/x/int_max" int_max_x
  let kp_y := param_get server "/apoc/pid/y/kp" kp_y
  let ki_y := param_get server "/apoc/pid/y/ki" ki_y
  let kd_y := param_get server "/apoc/pid/y/kd" kd_y
  let out_min_y := param_get server "/apoc/pid/y/out_min" out_min_y
  let out_max_y := param_get server "/apoc/pid/y/out_max" out_max_y
  let int_min_y := param_get server "/apoc/pid/y/int_min" int_min_y
  let int_max_y := param_get server "/apoc/pid/y/int_max" int_max_y
  let kp_z := param_get server "/apoc/pid/z/kp" kp_z
  let ki_z := param_get server "/apoc/pid/z/ki" ki_z
  let kd_z := param_get server "/apoc/pid/z/kd" kd_z
  let out_min_z := param_get server "/apoc/pid/z/out_min" out_min_z
  let out_max_z := param_get server "/apoc/pid/z/out_max" out_max_z
  let int_min_z := param_get server "/apoc/pid/z/int_min" int_min_z
  let int_max_z := param_get server "/apoc/pid/z/int_max" int_max_z
  let kp_yaw := param_get server "/apoc/pid/yaw/kp" kp_yaw
  let ki_yaw := param_get server "/apoc/pid/yaw/ki" ki_yaw
  let kd_yaw := param_get server "/apoc/pid/yaw/kd" kd_yaw
  let out_min_yaw := param_get server "/apoc/pid/yaw/out_min" out_min_yaw
  let out_max_yaw := param_get server "/apoc/pid/yaw/out_max" out_max_yaw
  let int_min_yaw := param_get server "/apoc/pid/yaw/int_min" int_min_yaw
  let int_max_yaw := param_get server "/apoc/pid/yaw/int_max" int_max_yaw
  [(Axis.x, ⟨kp_x, ki_x, kd_x, out_min_x, out_max_x, int_min_x, int_max_x⟩),
   (Axis.y, ⟨kp_y, ki_y, kd_y, out_min_y, out_max_y, int_min_y, int_max_y⟩),
   (Axis.z, ⟨kp_z, ki_z, kd_z, out_min_z, out_max_z, int_min_z, int_max_z⟩),
   (Axis.yaw, ⟨kp_yaw, ki_yaw, kd_yaw, out_min_yaw, out_max_yaw, int_min_yaw, int_max_yaw⟩)]

/-- The seven fields of a parameter set. -/
inductive Field
  | kp
  | ki
  | kd
  | out_min
  | out_max
  | int_min
  | int_max
deriving DecidableEq

/-- The value of one field of a parameter set. -/
def PIDParams.get (p : PIDParams α) : Field → α
  | Field.kp => p.kp
  | Field.ki => p.ki
  | Field.kd => p.kd
  | Field.out_min => p.out_min
  | Field.out_max => p.out_max
  | Field.int_min => p.int_min
  | Field.int_max => p.int_max

/-- The parameter-server key of a field of an axis:
`/apoc/pid/[axis]/[field]`, the 28 keys the source reads. -/
def paramKey : Axis → Field → String
  | Axis.x, Field.kp => "/apoc/pid/x/kp"
  | Axis.x, Field.ki => "/apoc/pid/x/ki"
  | Axis.x, Field.kd => "/apoc/pid/x/kd"
  | Axis.x, Field.out_min => "/apoc/pid/x/out_min"
  | Axis.x, Field.out_max => "/apoc/pid/x/out_max"
  | Axis.x, Field.int_min => "/apoc/pid/x/int_min"
  | Axis.x, Field.int_max => "/apoc/pid/x/int_max"
  | Axis.y, Field.kp => "/apoc/pid/y/kp"
  | Axis.y, Field.ki => "/apoc/pid/y/ki"
  | Axis.y, Field.kd => "/apoc/pid/y/kd"
  | Axis.y, Field.out_min => "/apoc/pid/y/out_min"
  | Axis.y, Field.out_max => "/apoc/pid/y/out_max"
  | Axis.y, Field.int_min => "/apoc/pid/y/int_min"
  | Axis.y, Field.int_max => "/apoc/pid/y/int_max"
  | Axis.z, Field.kp => "/apoc/pid/z/kp"
  | Axis.z, Field.ki => "/apoc/pid/z/ki"
  | Axis.z, Field.kd => "/apoc/pid/z/kd"
  | Axis.z, Field.out_min => "/apoc/pid/z/out_min"
  | Axis.z, Field.out_max => "/apoc/pid/z/out_max"
  | Axis.z, Field.int_min => "/apoc/pid/z/int_min"
  | Axis.z, Field.int_max => "/apoc/pid/z/int_max"
  | Axis.yaw, Field.kp => "/apoc/pid/yaw/kp"
  | Axis.yaw, Field.ki => "/apoc/pid/yaw/ki"
  | Axis.yaw, Field.kd => "/apoc/pid/yaw/kd"
  | Axis.yaw, Field.out_min => "/apoc/pid/yaw/out_min"
  | Axis.yaw, Field.out_max => "/apoc/pid/yaw/out_max"
  | Axis.yaw, Field.int_min => "/apoc/pid/yaw/int_min"
  | Axis.yaw, Field.int_max => "/apoc/pid/yaw/int_max"

/-- The built-in defaults of each axis (pidparams.cpp, lines 10-27), as a
table. -/
def defaultParams : Axis → PIDParams α
  | Axis.x => ⟨0.8, 0.2, 0.1, -0.5, 0.5, -0.3, 0.3⟩
  | Axis.y => ⟨0.8, 0.2, 0.1, -0.5, 0.5, -0.3, 0.3⟩
  | Axis.z => ⟨1.0, 0.3, 0.15, -0.3, 0.3, -0.2, 0.2⟩
  | Axis.yaw => ⟨0.6, 0.1, 0.05, -0.2, 0.2, -0.1, 0.1⟩

/-- The arguments of the `setPIDctrlParams` calls made on the controller of
axis `a`, in program order. -/
def passedTo (calls : List (Axis × PIDParams α)) (a : Axis) : List (PIDParams α) :=
  (calls.filter fun c => c.1 = a).map fun c => c.2

/-- A parameter set whose limits are malformed: `out_min ≥ out_max` or
`int_min ≥ int_max`. -/
def malformed (p : PIDParams α) : Prop :=
  p.out_max ≤ p.out_min ∨ p.int_max ≤ p.int_min

instance malformedDecidable (p : PIDParams α) : Decidable (malformed p) :=
  inferInstanceAs (Decidable (p.out_max ≤ p.out_min ∨ p.int_max ≤ p.int_min))

/-- The parameter server with the value of one key replaced. -/
def setParam (server : String → Option α) (key : String) (v : α) : String → Option α :=
  fun k => if k = key then some v else server k

/-- The parameter set of an axis after the overrides are applied, field by
field: the configured value when the field's key is present, the built-in
default otherwise. -/
def overridden (server : String → Option α) (a : Axis) : PIDParams α :=
  ⟨param_get server (paramKey a Field.kp) (defaultParams a).kp,
    param_get server (paramKey a Field.ki) (defaultParams a).ki,
    param_get server (paramKey a Field.kd) (defaultParams a).kd,
    param_get server (paramKey a Field.out_min) (defaultParams a).out_min,
    param_get server (paramKey a Field.out_max) (defaultParams a).out_max,
    param_get server (paramKey a Field.int_min) (defaultParams a).int_min,
    param_get server (paramKey a Field.int_max) (defaultParams a).int_max⟩

/-- The values of field `f` in the `setPIDctrlParams` calls made on the
controller of axis `a`. -/
def passedField (calls : List (Axis × PIDParams α)) (a : Axis) (f : Field) : List α :=
  (passedTo calls a).map fun p => p.get f

end Params

/-! ## The axis controller, from the specification -/

section SpecPid

variable {α : Type} [LinearOrderedField α]

/-- Modelled from the spec: the state of class `pidctrl`, which is declared
outside the sources. The specification lists the setpoint, the accumulated
integral, the previous error and the parameter set. -/
structure pidctrl (α : Type) where
  params : PIDParams α
  setpoint : α
  integral : α
  prev_error : α
deriving DecidableEq

/-- Clamping of `v` to the interval from `lo` to `hi`. -/
def clamp (lo hi v : α) : α :=
  max lo (min hi v)

/-- Modelled from the spec: the `pidctrl` constructor, missing from the
sources. A controller is created fresh for each flight request, with the
given parameter set and no accumulated integral or previous error. -/
def pidctrl.construct (p : PIDParams α) : pidctrl α :=
  ⟨p, 0, 0, 0⟩

/-- Modelled from the spec: the member `setSetpoint`, missing from the
sources; it stores the target value. -/
def pidctrl.setSetpoint (c : pidctrl α) (value : α) : pidctrl α :=
  { c with setpoint := value }

/-- Modelled from the spec: the member `compute`, missing from the sources.
The error is the setpoint minus the measurement; the integral accumulates
error times cycle period and is clamped to the integral limits; the
derivative is the change of error over the cycle period; the output is
`kp * error + ki * integral + kd * derivative` clamped to the output limits;
the call stores the new integral and the error as previous error. All four
controllers are objects of the one class, built from seven parameters alone,
so the clause on circular yaw error has no place in this member and is left
out. -/
def pidctrl.compute (cycle_period : α) (c : pidctrl α) (measurement : α) : α × pidctrl α :=
  let error := c.setpoint - measurement
  let integral := clamp c.params.int_min c.params.int_max (c.integral + error * cycle_period)
  let derivative := (error - c.prev_error) / cycle_period
  let raw := c.params.kp * error + c.params.ki * integral + c.params.kd * derivative
  (clamp c.params.out_min c.params.out_max raw,
    { c with integral := integral, prev_error := error })

/-- Modelled from the spec: class `pidctrl` with the three members above,
for a fixed cycle period. -/
def specPidCtrl (cycle_period : α) : PidCtrlClass α (pidctrl α) :=
  ⟨pidctrl.construct, pidctrl.setSetpoint, pidctrl.compute cycle_period⟩

end SpecPid

/-! ## Concrete inputs for the examples -/

section Examples

/-- Macro values for the examples: the parameter sets of pidparams.cpp, a
control rate of 20 Hz and a flight timeout of 60 s. -/
def exampleMacros (α : Type) [LinearOrderedField α] : Macros α :=
  ⟨defaultParams Axis.x, defaultParams Axis.y, defaultParams Axis.z, defaultParams Axis.yaw,
    20, 60⟩

/-- An observation of one pass: the vehicle at the origin with zero yaw. -/
def obsAt (α : Type) [LinearOrderedField α] (ok : Bool) (elapsed : α) (reached dispatched : Bool) :
    CycleObs α :=
  ⟨ok, elapsed, reached, 0, 0, 0, 0, dispatched⟩

/-- The value of the `double` constant `M_PI` of `math.h`, as a rational. -/
def M_PI_double : ℚ :=
  884279719003555 / 281474976710656

end Examples

/-! ## Lemmas on the yaw normalisation -/

section YawLemmas

variable {α : Type} [LinearOrderedField α] [FloorRing α]

theorem fmod_eq_sub_int (x y : α) : ∃ t : ℤ, fmod x y = x - (t : α) * y :=
  ⟨truncToInt (x / y), rfl⟩

theorem fmod_nonneg_bounds {x m : α} (hm : 0 < m) (hx : 0 ≤ x) :
    0 ≤ fmod x m ∧ fmod x m < m := by
  have hq : 0 ≤ x / m := div_nonneg hx hm.le
  have hxm : x / m * m = x := div_mul_cancel₀ x hm.ne'
  have h1 : ((⌊x / m⌋ : ℤ) : α) ≤ x / m := Int.floor_le _
  have h2 : x / m < ((⌊x / m⌋ : ℤ) : α) + 1 := Int.lt_floor_add_one _
  have h3 : ((⌊x / m⌋ : ℤ) : α) * m ≤ x / m * m := mul_le_mul_of_nonneg_right h1 hm.le
  have h4 : x / m * m < (((⌊x / m⌋ : ℤ) : α) + 1) * m := mul_lt_mul_of_pos_right h2 hm
  simp only [fmod, truncToInt, if_pos hq]
  constructor <;> nlinarith

theorem fmod_neg_bounds {x m : α} (hm : 0 < m) (hx : x < 0) :
    -m < fmod x m ∧ fmod x m ≤ 0 := by
  have hq : ¬ 0 ≤ x / m := not_le.mpr (div_neg_of_neg_of_pos hx hm)
  have hxm : x / m * m = x := div_mul_cancel₀ x hm.ne'
  have h1 : x / m ≤ ((⌈x / m⌉ : ℤ) : α) := Int.le_ceil _
  have h2 : ((⌈x / m⌉ : ℤ) : α) < x / m + 1 := Int.ceil_lt_add_one _
  have h3 : x / m * m ≤ ((⌈x / m⌉ : ℤ) : α) * m := mul_le_mul_of_nonneg_right h1 hm.le
  have h4 : ((⌈x / m⌉ : ℤ) : α) * m < (x / m + 1) * m := mul_lt_mul_of_pos_right h2 hm
  simp only [fmod, truncToInt, if_neg hq]
  constructor <;> nlinarith

theorem fmod_abs_bounds {x m : α} (hm : 0 < m) : -m < fmod x m ∧ fmod x m < m := by
  rcases le_or_lt 0 x with hx | hx
  · have := fmod_nonneg_bounds hm hx
    exact ⟨by linarith, this.2⟩
  · have := fmod_neg_bounds hm hx
    exact ⟨this.1, by linarith⟩

/-- The normalised yaw differs from the argument by an integer number of
turns and lies in the closed interval from `-M_PI` to `M_PI`. -/
theorem normalizeYaw_spec {p : α} (hp : 0 < p) (y : α) :
    (∃ j : ℤ, normalizeYaw p y = y - (j : α) * (2 * p)) ∧
      -p ≤ normalizeYaw p y ∧ normalizeYaw p y ≤ p := by
  obtain ⟨t, ht⟩ := fmod_eq_sub_int y (2 * p)
  have hb := fmod_abs_bounds (x := y) (m := 2 * p) (by linarith)
  unfold normalizeYaw
  simp only
  split_ifs with h1 h2
  · refine ⟨⟨t + 1, ?_⟩, by linarith, by linarith⟩
    rw [ht]; push_cast; ring
  · refine ⟨⟨t - 1, ?_⟩, by linarith, by linarith⟩
    rw [ht]; push_cast; ring
  · exact ⟨⟨t, ht⟩, by linarith, by linarith⟩

/-- Away from the odd multiples of `M_PI` the normalisation has period
`2 * M_PI`. -/
theorem normalizeYaw_periodic_of_not_odd {p : α} (hp : 0 < p) (y : α)
    (hy : ∀ m : ℤ, y ≠ (2 * (m : α) + 1) * p) (k : ℤ) :
    normalizeYaw p (y + 2 * p * (k : α)) = normalizeYaw p y := by
  obtain ⟨⟨j1, h1⟩, l1, u1⟩ := normalizeYaw_spec hp (y + 2 * p * (k : α))
  obtain ⟨⟨j2, h2⟩, l2, u2⟩ := normalizeYaw_spec hp y
  have n2u : normalizeYaw p y ≠ p := by
    intro h
    apply hy j2
    rw [h] at h2
    linear_combination -h2
  have n2l : normalizeYaw p y ≠ -p := by
    intro h
    apply hy (j2 - 1)
    rw [h] at h2
    push_cast
    linear_combination -h2
  have n1u : normalizeYaw p (y + 2 * p * (k : α)) ≠ p := by
    intro h
    apply hy (j1 - k)
    rw [h] at h1
    push_cast
    linear_combination -h1
  have n1l : normalizeYaw p (y + 2 * p * (k : α)) ≠ -p := by
    intro h
    apply hy (j1 - k - 1)
    rw [h] at h1
    push_cast
    linear_combination -h1
  have l1s := lt_of_le_of_ne l1 (Ne.symm n1l)
  have u1s := lt_of_le_of_ne u1 n1u
  have l2s := lt_of_le_of_ne l2 (Ne.symm n2l)
  have u2s := lt_of_le_of_ne u2 n2u
  have hd : normalizeYaw p (y + 2 * p * (k : α)) - normalizeYaw p y
      = (((k - j1 + j2 : ℤ)) : α) * (2 * p) := by
    rw [h1, h2]; push_cast; ring
  have hlt : (((k - j1 + j2 : ℤ)) : α) < 1 := by
    by_contra hc
    have hc := not_lt.mp hc
    have : (1 : α) * (2 * p) ≤ (((k - j1 + j2 : ℤ)) : α) * (2 * p) :=
      mul_le_mul_of_nonneg_right hc (by linarith)
    linarith
  have hgt : (-1 : α) < (((k - j1 + j2 : ℤ)) : α) := by
    by_contra hc
    have hc := not_lt.mp hc
    have : (((k - j1 + j2 : ℤ)) : α) * (2 * p) ≤ (-1 : α) * (2 * p) :=
      mul_le_mul_of_nonneg_right hc (by linarith)
    linarith
  have hlt' : (k - j1 + j2 : ℤ) < 1 := by exact_mod_cast hlt
  have hgt' : (-1 : ℤ) < (k - j1 + j2 : ℤ) := by exact_mod_cast hgt
  have hz : (k - j1 + j2 : ℤ) = 0 := by omega
  rw [hz] at hd
  simp at hd
  linarith

theorem fmod_of_nonneg_of_lt {x m : α} (h0 : 0 ≤ x) (h1 : x < m) : fmod x m = x := by
  have hm : 0 < m := lt_of_le_of_lt h0 h1
  have hq0 : 0 ≤ x / m := div_nonneg h0 hm.le
  have hfl : ⌊x / m⌋ = 0 := by
    rw [Int.floor_eq_iff]
    constructor
    · simpa using hq0
    · rw [div_lt_iff₀ hm]; simpa using h1
  simp [fmod, truncToInt, if_pos hq0, hfl]

theorem fmod_of_neg_of_gt {x m : α} (h0 : x < 0) (h1 : -m < x) : fmod x m = x := by
  have hm : 0 < m := by linarith
  have hq0 : ¬ 0 ≤ x / m := not_le.mpr (div_neg_of_neg_of_pos h0 hm)
  have hcl : ⌈x / m⌉ = 0 := by
    rw [Int.ceil_eq_iff]
    constructor
    · rw [lt_div_iff₀ hm]; simpa using h1
    · simpa using (not_le.mp hq0).le
  simp [fmod, truncToInt, if_neg hq0, hcl]

/-- A yaw strictly between `M_PI` and `2 * M_PI` is normalised to itself
minus one turn. -/
theorem normalizeYaw_of_gt_pi {p y : α} (h1 : p < y) (h2 : y < 2 * p) :
    normalizeYaw p y = y - 2 * p := by
  have hp : 0 < p := by linarith
  have hf : fmod y (2 * p) = y := fmod_of_nonneg_of_lt (by linarith) h2
  unfold normalizeYaw
  simp only [hf]
  rw [if_pos h1]

/-- The normalisation keeps `M_PI` itself. -/
theorem normalizeYaw_pi {p : α} (hp : 0 < p) : normalizeYaw p p = p := by
  have hf : fmod p (2 * p) = p := fmod_of_nonneg_of_lt hp.le (by linarith)
  unfold normalizeYaw
  simp only [hf]
  rw [if_neg (lt_irrefl p), if_neg (by linarith)]

/-- The normalisation keeps `-M_PI` itself. -/
theorem normalizeYaw_neg_pi {p : α} (hp : 0 < p) : normalizeYaw p (-p) = -p := by
  have hf : fmod (-p) (2 * p) = -p := fmod_of_neg_of_gt (by linarith) (by linarith)
  unfold normalizeYaw
  simp only [hf]
  rw [if_neg (by linarith), if_neg (lt_irrefl (-p))]

/-- The normalisation keeps a zero yaw. -/
theorem normalizeYaw_zero {p : α} (hp : 0 < p) : normalizeYaw p 0 = 0 := by
  have hf : fmod (0 : α) (2 * p) = 0 := fmod_of_nonneg_of_lt le_rfl (by linarith)
  unfold normalizeYaw
  simp only [hf]
  rw [if_neg (by linarith), if_neg (by linarith)]

end YawLemmas

/-! ## Lemmas on the control loop -/

section LoopLemmas

variable {α C : Type} [LinearOrderedField α] [FloorRing α]
variable (api : PidCtrlClass α C) (M_PI : α) (mc : Macros α) (tx ty tz tyaw : α)

theorem cycle_not_ok (pids : Controllers C) (o : CycleObs α) (hok : o.ok = false) :
    cycle api M_PI mc tx ty tz tyaw pids o = ⟨some false, pids, []⟩ := by
  simp [cycle, hok]

theorem cycle_timeout (pids : Controllers C) (o : CycleObs α) (hok : o.ok = true)
    (ht : mc.PID_FLIGHT_TIMEOUT < o.elapsed) :
    cycle api M_PI mc tx ty tz tyaw pids o = ⟨some false, pids, []⟩ := by
  simp [cycle, hok, ht]

theorem cycle_reached (pids : Controllers C) (o : CycleObs α) (hok : o.ok = true)
    (ht : o.elapsed ≤ mc.PID_FLIGHT_TIMEOUT) (hr : o.reached = true) :
    cycle api M_PI mc tx ty tz tyaw pids o
      = ⟨some true, pids, [Event.reachCheck tx ty tz tyaw]⟩ := by
  simp [cycle, hok, not_lt.mpr ht, hr]

theorem cycle_continue (pids : Controllers C) (o : CycleObs α) (hok : o.ok = true)
    (ht : o.elapsed ≤ mc.PID_FLIGHT_TIMEOUT) (hr : o.reached = false) :
    (cycle api M_PI mc tx ty tz tyaw pids o).ret = none ∧
    (cycle api M_PI mc tx ty tz tyaw pids o).pids =
      ⟨(api.compute pids.pid_x o.x).2, (api.compute pids.pid_y o.y).2,
        (api.compute pids.pid_z o.z).2,
        (api.compute pids.pid_yaw (normalizeYaw M_PI o.rpy_yaw)).2⟩ ∧
    (dispatches (cycle api M_PI mc tx ty tz tyaw pids o).trace).length = 1 ∧
    setpointCalls (cycle api M_PI mc tx ty tz tyaw pids o).trace = [] := by
  cases hd : o.dispatched <;>
    simp [cycle, hok, not_lt.mpr ht, hr, hd, dispatches, setpointCalls]

theorem cycle_failed_trace (pids : Controllers C) (o : CycleObs α) (hok : o.ok = true)
    (ht : o.elapsed ≤ mc.PID_FLIGHT_TIMEOUT) (hr : o.reached = false)
    (hd : o.dispatched = false) :
    (cycle api M_PI mc tx ty tz tyaw pids o).trace
      = [Event.reachCheck tx ty tz tyaw,
          Event.compute Axis.x o.x, Event.compute Axis.y o.y, Event.compute Axis.z o.z,
          Event.compute Axis.yaw (normalizeYaw M_PI o.rpy_yaw),
          Event.flytoAbsolute (o.x + (api.compute pids.pid_x o.x).1)
            (o.y + (api.compute pids.pid_y o.y).1) (o.z + (api.compute pids.pid_z o.z).1)
            (normalizeYaw M_PI (normalizeYaw M_PI o.rpy_yaw +
              (api.compute pids.pid_yaw (normalizeYaw M_PI o.rpy_yaw)).1)),
          Event.durationSleep 0.1, Event.rateSleep mc.PID_CONTROL_RATE] := by
  simp [cycle, hok, not_lt.mpr ht, hr, hd]

theorem cycle_setpointCalls (pids : Controllers C) (o : CycleObs α) :
    setpointCalls (cycle api M_PI mc tx ty tz tyaw pids o).trace = [] := by
  cases hok : o.ok
  · simp [cycle_not_ok api M_PI mc tx ty tz tyaw pids o hok, setpointCalls]
  · rcases lt_or_le mc.PID_FLIGHT_TIMEOUT o.elapsed with ht | ht
    · simp [cycle_timeout api M_PI mc tx ty tz tyaw pids o hok ht, setpointCalls]
    · cases hr : o.reached
      · exact (cycle_continue api M_PI mc tx ty tz tyaw pids o hok ht hr).2.2.2
      · simp [cycle_reached api M_PI mc tx ty tz tyaw pids o hok ht hr, setpointCalls]

theorem loop_nil (pids : Controllers C) :
    loop api M_PI mc tx ty tz tyaw pids [] = ⟨none, pids, []⟩ := rfl

theorem loop_cons_ret (pids : Controllers C) (o : CycleObs α) (os : List (CycleObs α))
    (b : Bool) (h : (cycle api M_PI mc tx ty tz tyaw pids o).ret = some b) :
    loop api M_PI mc tx ty tz tyaw pids (o :: os)
      = ⟨some b, (cycle api M_PI mc tx ty tz tyaw pids o).pids,
          (cycle api M_PI mc tx ty tz tyaw pids o).trace⟩ := by
  simp [loop, h]

theorem loop_cons_none (pids : Controllers C) (o : CycleObs α) (os : List (CycleObs α))
    (h : (cycle api M_PI mc tx ty tz tyaw pids o).ret = none) :
    loop api M_PI mc tx ty tz tyaw pids (o :: os)
      = ⟨(loop api M_PI mc tx ty tz tyaw
            (cycle api M_PI mc tx ty tz tyaw pids o).pids os).result,
          (loop api M_PI mc tx ty tz tyaw
            (cycle api M_PI mc tx ty tz tyaw pids o).pids os).pids,
          (cycle api M_PI mc tx ty tz tyaw pids o).trace ++
            (loop api M_PI mc tx ty tz tyaw
              (cycle api M_PI mc tx ty tz tyaw pids o).pids os).trace⟩ := by
  simp [loop, h]

/-- A loop that is still going after the passes of `pre` continues on the
remaining observations from the controllers those passes left. -/
theorem loop_append (pids : Controllers C) (pre rest : List (CycleObs α))
    (h : (loop api M_PI mc tx ty tz tyaw pids pre).result = none) :
    loop api M_PI mc tx ty tz tyaw pids (pre ++ rest)
      = ⟨(loop api M_PI mc tx ty tz tyaw
            (loop api M_PI mc tx ty tz tyaw pids pre).pids rest).result,
          (loop api M_PI mc tx ty tz tyaw
            (loop api M_PI mc tx ty tz tyaw pids pre).pids rest).pids,
          (loop api M_PI mc tx ty tz tyaw pids pre).trace ++
            (loop api M_PI mc tx ty tz tyaw
              (loop api M_PI mc tx ty tz tyaw pids pre).pids rest).trace⟩ := by
  induction pre generalizing pids with
  | nil => simp [loop_nil]
  | cons o os ih =>
    cases hc : (cycle api M_PI mc tx ty tz tyaw pids o).ret with
    | some b =>
      rw [loop_cons_ret api M_PI mc tx ty tz tyaw pids o os b hc] at h
      simp at h
    | none =>
      rw [loop_cons_none api M_PI mc tx ty tz tyaw pids o os hc] at h
      simp only at h
      rw [List.cons_append, loop_cons_none api M_PI mc tx ty tz tyaw pids o (os ++ rest) hc,
        ih _ h, loop_cons_none api M_PI mc tx ty tz tyaw pids o os hc]
      simp [List.append_assoc]

theorem loop_setpointCalls (pids : Controllers C) (obs : List (CycleObs α)) :
    setpointCalls (loop api M_PI mc tx ty tz tyaw pids obs).trace = [] := by
  induction obs generalizing pids with
  | nil => simp [loop_nil, setpointCalls]
  | cons o os ih =>
    cases hc : (cycle api M_PI mc tx ty tz tyaw pids o).ret with
    | some b =>
      rw [loop_cons_ret api M_PI mc tx ty tz tyaw pids o os b hc]
      exact cycle_setpointCalls api M_PI mc tx ty tz tyaw pids o
    | none =>
      rw [loop_cons_none api M_PI mc tx ty tz tyaw pids o os hc]
      have h1 := cycle_setpointCalls api M_PI mc tx ty tz tyaw pids o
      have h2 := ih (cycle api M_PI mc tx ty tz tyaw pids o).pids
      simp only [setpointCalls, List.filter_append] at h1 h2 ⊢
      rw [h1, h2]; rfl

/-- The controllers with which an armed call enters the loop. -/
theorem flytoPIDcorrect_armed (yaw : α) (obs : List (CycleObs α)) :
    flytoPIDcorrect api M_PI mc true tx ty tz yaw obs
      = ⟨(loop api M_PI mc tx ty tz (normalizeYaw M_PI yaw)
            ⟨api.setSetpoint (api.construct mc.PID_X) tx,
              api.setSetpoint (api.construct mc.PID_Y) ty,
              api.setSetpoint (api.construct mc.PID_Z) tz,
              api.setSetpoint (api.construct mc.PID_YAW) (normalizeYaw M_PI yaw)⟩ obs).result,
          some (loop api M_PI mc tx ty tz (normalizeYaw M_PI yaw)
            ⟨api.setSetpoint (api.construct mc.PID_X) tx,
              api.setSetpoint (api.construct mc.PID_Y) ty,
              api.setSetpoint (api.construct mc.PID_Z) tz,
              api.setSetpoint (api.construct mc.PID_YAW) (normalizeYaw M_PI yaw)⟩ obs).pids,
          [Event.setSetpoint Axis.x tx, Event.setSetpoint Axis.y ty,
            Event.setSetpoint Axis.z tz,
            Event.setSetpoint Axis.yaw (normalizeYaw M_PI yaw)] ++
          (loop api M_PI mc tx ty tz (normalizeYaw M_PI yaw)
            ⟨api.setSetpoint (api.construct mc.PID_X) tx,
              api.setSetpoint (api.construct mc.PID_Y) ty,
              api.setSetpoint (api.construct mc.PID_Z) tz,
              api.setSetpoint (api.construct mc.PID_YAW) (normalizeYaw M_PI yaw)⟩ obs).trace⟩ := by
  simp [flytoPIDcorrect]

theorem flytoPIDcorrect_unarmed (yaw : α) (obs : List (CycleObs α)) :
    flytoPIDcorrect api M_PI mc false tx ty tz yaw obs = ⟨some false, none, []⟩ := by
  simp [flytoPIDcorrect]

end LoopLemmas

/-! ## The claims on `flytoPIDcorrect` -/

section FlightClaims

variable {α C : Type} [LinearOrderedField α] [FloorRing α]

/-- C1: with `armed = false`, for every target and every list of
observations, `flytoPIDcorrect` returns false before the loop is entered: no
controller is constructed and the trace is empty, so `reachCheck`, `compute`
and `flytoAbsolute` are each called zero times. -/
theorem flytoPIDcorrect_not_armed (api : PidCtrlClass α C) (M_PI : α) (mc : Macros α)
    (x y z yaw : α) (obs : List (CycleObs α)) :
    (flytoPIDcorrect api M_PI mc false x y z yaw obs).result = some false ∧
    (flytoPIDcorrect api M_PI mc false x y z yaw obs).pids = none ∧
    (flytoPIDcorrect api M_PI mc false x y z yaw obs).trace = [] ∧
    reachChecks (flytoPIDcorrect api M_PI mc false x y z yaw obs).trace = [] ∧
    computes (flytoPIDcorrect api M_PI mc false x y z yaw obs).trace = [] ∧
    dispatches (flytoPIDcorrect api M_PI mc false x y z yaw obs).trace = [] := by
  simp [flytoPIDcorrect_unarmed, reachChecks, computes, dispatches]

/-- C2 (as amended): the timeout check is made before the arrival check. In
a pass that an armed call reaches with the node running and `reachCheck`
reporting arrival, the call returns true when the elapsed time is at most
`PID_FLIGHT_TIMEOUT` (the boundary included), and returns false, without
calling `reachCheck` in that pass, when the elapsed time exceeds it. -/
theorem flytoPIDcorrect_arrival_after_timeout (api : PidCtrlClass α C) (M_PI : α)
    (mc : Macros α) (x y z yaw : α) (pre : List (CycleObs α)) (o : CycleObs α)
    (post : List (CycleObs α))
    (hpre : (flytoPIDcorrect api M_PI mc true x y z yaw pre).result = none)
    (hok : o.ok = true) (hr : o.reached = true) :
    (o.elapsed ≤ mc.PID_FLIGHT_TIMEOUT →
      (flytoPIDcorrect api M_PI mc true x y z yaw (pre ++ o :: post)).result = some true) ∧
    (mc.PID_FLIGHT_TIMEOUT < o.elapsed →
      (flytoPIDcorrect api M_PI mc true x y z yaw (pre ++ o :: post)).result = some false ∧
      (flytoPIDcorrect api M_PI mc true x y z yaw (pre ++ o :: post)).trace
        = (flytoPIDcorrect api M_PI mc true x y z yaw pre).trace) := by
  rw [flytoPIDcorrect_armed] at hpre
  simp only at hpre
  rw [flytoPIDcorrect_armed, flytoPIDcorrect_armed, loop_append _ _ _ _ _ _ _ _ _ _ hpre]
  constructor
  · intro ht
    rw [loop_cons_ret _ _ _ _ _ _ _ _ _ _ true
      (by rw [cycle_reached _ _ _ _ _ _ _ _ _ hok ht hr])]
  · intro ht
    rw [loop_cons_ret _ _ _ _ _ _ _ _ _ _ false
      (by rw [cycle_timeout _ _ _ _ _ _ _ _ _ hok ht]),
      cycle_timeout _ _ _ _ _ _ _ _ _ hok ht]
    simp

/-- C3: in an armed run whose passes in `pre` all see the node running,
`reachCheck` false, `flytoAbsolute` failing and an elapsed time of at most
`PID_FLIGHT_TIMEOUT`, followed by a pass with the node running whose elapsed
time exceeds the timeout: after any number `n` of the passes of `pre` the
call has not returned and has dispatched exactly `n` times, and at the pass
that exceeds the timeout it returns false, with one dispatch per earlier
pass. -/
theorem flytoPIDcorrect_dispatch_failure_not_fatal (api : PidCtrlClass α C) (M_PI : α)
    (mc : Macros α) (x y z yaw : α) (pre : List (CycleObs α)) (o : CycleObs α)
    (post : List (CycleObs α))
    (hpre : ∀ c ∈ pre, c.ok = true ∧ c.reached = false ∧ c.dispatched = false ∧
      c.elapsed ≤ mc.PID_FLIGHT_TIMEOUT)
    (hok : o.ok = true) (ht : mc.PID_FLIGHT_TIMEOUT < o.elapsed) :
    (∀ n, n ≤ pre.length →
      (flytoPIDcorrect api M_PI mc true x y z yaw (pre.take n)).result = none ∧
      (dispatches (flytoPIDcorrect api M_PI mc true x y z yaw (pre.take n)).trace).length
        = n) ∧
    (flytoPIDcorrect api M_PI mc true x y z yaw (pre ++ o :: post)).result = some false ∧
    (dispatches (flytoPIDcorrect api M_PI mc true x y z yaw (pre ++ o :: post)).trace).length
      = pre.length := by
  have key : ∀ (l : List (CycleObs α)) (pids : Controllers C),
      (∀ c ∈ l, c.ok = true ∧ c.reached = false ∧ c.dispatched = false ∧
        c.elapsed ≤ mc.PID_FLIGHT_TIMEOUT) →
      (loop api M_PI mc x y z (normalizeYaw M_PI yaw) pids l).result = none ∧
      (dispatches (loop api M_PI mc x y z (normalizeYaw M_PI yaw) pids l).trace).length
        = l.length := by
    intro l
    induction l with
    | nil => intro pids _; simp [loop_nil, dispatches]
    | cons c cs ih =>
      intro pids hl
      obtain ⟨hcok, hcr, _, hct⟩ := hl c (List.mem_cons_self c cs)
      obtain ⟨hret, _, hdisp, _⟩ :=
        cycle_continue api M_PI mc x y z (normalizeYaw M_PI yaw) pids c hcok hct hcr
      obtain ⟨h1, h2⟩ := ih (cycle api M_PI mc x y z (normalizeYaw M_PI yaw) pids c).pids
        (fun d hd => hl d (List.mem_cons_of_mem c hd))
      rw [loop_cons_none _ _ _ _ _ _ _ _ _ _ hret]
      refine ⟨h1, ?_⟩
      simp only [dispatches, List.filter_append, List.length_append, List.length_cons]
        at hdisp h2 ⊢
      omega
  refine ⟨?_, ?_⟩
  · intro n hn
    obtain ⟨h1, h2⟩ := key (pre.take n) _ (fun c hc => hpre c (List.mem_of_mem_take hc))
    rw [flytoPIDcorrect_armed]
    refine ⟨h1, ?_⟩
    simp only [dispatches, List.filter_append, List.length_append] at h2 ⊢
    rw [h2, List.length_take]
    simp [Nat.min_eq_left hn]
  · obtain ⟨h1, h2⟩ := key pre _ hpre
    rw [flytoPIDcorrect_armed, loop_append _ _ _ _ _ _ _ _ _ _ h1,
      loop_cons_ret _ _ _ _ _ _ _ _ _ _ false
        (by rw [cycle_timeout _ _ _ _ _ _ _ _ _ hok ht]),
      cycle_timeout _ _ _ _ _ _ _ _ _ hok ht]
    refine ⟨rfl, ?_⟩
    simp only [dispatches, List.filter_append, List.length_append] at h2 ⊢
    rw [h2]
    simp

/-- C4: the shutdown signal is read at the top of every pass. If a call has
not returned after the passes of `pre` and the next pass sees `ros::ok()`
false, the call returns false and its whole trace is the trace of the passes
of `pre`: no call of `flytoAbsolute`, nor any other call, is made in that
pass or later, so the dispatches are those made before it. -/
theorem flytoPIDcorrect_shutdown (api : PidCtrlClass α C) (M_PI : α) (mc : Macros α)
    (armed : Bool) (x y z yaw : α) (pre : List (CycleObs α)) (o : CycleObs α)
    (post : List (CycleObs α))
    (hpre : (flytoPIDcorrect api M_PI mc armed x y z yaw pre).result = none)
    (hok : o.ok = false) :
    (flytoPIDcorrect api M_PI mc armed x y z yaw (pre ++ o :: post)).result = some false ∧
    (flytoPIDcorrect api M_PI mc armed x y z yaw (pre ++ o :: post)).trace
      = (flytoPIDcorrect api M_PI mc armed x y z yaw pre).trace ∧
    dispatches (flytoPIDcorrect api M_PI mc armed x y z yaw (pre ++ o :: post)).trace
      = dispatches (flytoPIDcorrect api M_PI mc armed x y z yaw pre).trace := by
  cases armed with
  | false => simp [flytoPIDcorrect_unarmed] at hpre
  | true =>
    rw [flytoPIDcorrect_armed] at hpre
    simp only at hpre
    rw [flytoPIDcorrect_armed, flytoPIDcorrect_armed, loop_append _ _ _ _ _ _ _ _ _ _ hpre,
      loop_cons_ret _ _ _ _ _ _ _ _ _ _ false
        (by rw [cycle_not_ok _ _ _ _ _ _ _ _ _ hok]),
      cycle_not_ok _ _ _ _ _ _ _ _ _ hok]
    simp

end FlightClaims

/-! ## The claims on the yaw normalisation -/

section YawClaims

/-- C5 (as stated, refuted): over the reals, with `k = -1`, normalising
`π + 2π·k = -π` gives `-π`, while normalising `π` gives `π`. -/
theorem normalizeYaw_not_periodic_at_pi :
    normalizeYaw Real.pi (Real.pi + 2 * Real.pi * (((-1 : ℤ)) : ℝ)) = -Real.pi ∧
    normalizeYaw Real.pi Real.pi = Real.pi ∧
    normalizeYaw Real.pi (Real.pi + 2 * Real.pi * (((-1 : ℤ)) : ℝ))
      ≠ normalizeYaw Real.pi Real.pi := by
  have e : Real.pi + 2 * Real.pi * (((-1 : ℤ)) : ℝ) = -Real.pi := by push_cast; ring
  have h1 := normalizeYaw_neg_pi Real.pi_pos
  have h2 := normalizeYaw_pi Real.pi_pos
  rw [e, h1, h2]
  refine ⟨rfl, rfl, ?_⟩
  have := Real.pi_pos
  intro h
  linarith

/-- C5 (as amended): over the reals, for every yaw `y` that is not an odd
multiple of `π` and every integer `k`, normalising `y + 2π·k` returns the
same value as normalising `y`. -/
theorem normalizeYaw_periodic (y : ℝ) (hy : ∀ m : ℤ, y ≠ (2 * (m : ℝ) + 1) * Real.pi)
    (k : ℤ) :
    normalizeYaw Real.pi (y + 2 * Real.pi * (k : ℝ)) = normalizeYaw Real.pi y :=
  normalizeYaw_periodic_of_not_odd Real.pi_pos y hy k

/-- The yaw `1` is not an odd multiple of `π`. -/
theorem one_not_odd_multiple_of_pi (m : ℤ) : (1 : ℝ) ≠ (2 * (m : ℝ) + 1) * Real.pi := by
  have h3 := Real.pi_gt_three
  intro h
  rcases le_or_lt 0 m with hm | hm
  · have hm' : (0 : ℝ) ≤ (m : ℝ) := by exact_mod_cast hm
    nlinarith
  · have hm' : (m : ℝ) ≤ -1 := by exact_mod_cast (by omega : m ≤ -1)
    nlinarith

/-- C5, at a concrete input: `y = 1` and `k = 3`. -/
theorem normalizeYaw_periodic_witness :
    normalizeYaw Real.pi (1 + 2 * Real.pi * (((3 : ℤ)) : ℝ)) = normalizeYaw Real.pi 1 :=
  normalizeYaw_periodic 1 one_not_odd_multiple_of_pi 3

/-- C6: over the reals, for every requested yaw `y` with `π < y < 2π`, an
armed call starts its trace with the four `setSetpoint` calls, the one on the
yaw controller with `y - 2π`, and makes no `setSetpoint` call afterwards: the
yaw setpoint is set once, before the loop. -/
theorem flytoPIDcorrect_yaw_setpoint {C : Type} (api : PidCtrlClass ℝ C) (mc : Macros ℝ)
    (x y z yaw : ℝ) (obs : List (CycleObs ℝ)) (h1 : Real.pi < yaw)
    (h2 : yaw < 2 * Real.pi) :
    ∃ rest, (flytoPIDcorrect api Real.pi mc true x y z yaw obs).trace
        = [Event.setSetpoint Axis.x x, Event.setSetpoint Axis.y y,
            Event.setSetpoint Axis.z z,
            Event.setSetpoint Axis.yaw (yaw - 2 * Real.pi)] ++ rest ∧
      setpointCalls rest = [] := by
  rw [flytoPIDcorrect_armed, normalizeYaw_of_gt_pi h1 h2]
  exact ⟨_, rfl, loop_setpointCalls _ _ _ _ _ _ _ _ _⟩

/-- C6, at the yaw of the scenario: `3.5` lies between `π` and `2π`, and the
yaw controller receives `3.5 - 2π`. -/
theorem flytoPIDcorrect_yaw_setpoint_witness :
    Real.pi < 3.5 ∧ (3.5 : ℝ) < 2 * Real.pi ∧
    ∃ rest, (flytoPIDcorrect (specPidCtrl (1 / 20 : ℝ)) Real.pi (exampleMacros ℝ) true
        1 2 3 3.5 [obsAt ℝ true 0 false true]).trace
        = [Event.setSetpoint Axis.x 1, Event.setSetpoint Axis.y 2,
            Event.setSetpoint Axis.z 3,
            Event.setSetpoint Axis.yaw (3.5 - 2 * Real.pi)] ++ rest ∧
      setpointCalls rest = [] :=
  ⟨by have := Real.pi_lt_d2; linarith, by have := Real.pi_gt_three; linarith,
    flytoPIDcorrect_yaw_setpoint _ _ 1 2 3 3.5 _
      (by have := Real.pi_lt_d2; linarith) (by have := Real.pi_gt_three; linarith)⟩

end YawClaims

/-! ## The claims on `flytoPIDcorrect`, at concrete inputs -/

section FlightExamples

/-- C2 (as stated, refuted): an armed call with a timeout of 60 s whose
first pass, at 0 s, dispatches, and whose second pass sees the node running,
61 s elapsed and `reachCheck` reporting arrival, returns false in that second
pass, not true. -/
theorem flytoPIDcorrect_arrival_late_returns_false :
    (obsAt ℚ true 61 true true).ok = true ∧ (obsAt ℚ true 61 true true).reached = true ∧
    (flytoPIDcorrect (specPidCtrl (1 / 20 : ℚ)) M_PI_double (exampleMacros ℚ) true
      0 0 0 0 [obsAt ℚ true 0 false true]).result = none ∧
    (flytoPIDcorrect (specPidCtrl (1 / 20 : ℚ)) M_PI_double (exampleMacros ℚ) true
      0 0 0 0 [obsAt ℚ true 0 false true, obsAt ℚ true 61 true true]).result = some false ∧
    (flytoPIDcorrect (specPidCtrl (1 / 20 : ℚ)) M_PI_double (exampleMacros ℚ) true
      0 0 0 0 [obsAt ℚ true 0 false true, obsAt ℚ true 61 true true]).result ≠ some true := by
  have h0 := cycle_continue (specPidCtrl (1 / 20 : ℚ)) M_PI_double (exampleMacros ℚ)
    0 0 0 (normalizeYaw M_PI_double 0)
    ⟨(specPidCtrl (1 / 20 : ℚ)).setSetpoint
        ((specPidCtrl (1 / 20 : ℚ)).construct (exampleMacros ℚ).PID_X) 0,
      (specPidCtrl (1 / 20 : ℚ)).setSetpoint
        ((specPidCtrl (1 / 20 : ℚ)).construct (exampleMacros ℚ).PID_Y) 0,
      (specPidCtrl (1 / 20 : ℚ)).setSetpoint
        ((specPidCtrl (1 / 20 : ℚ)).construct (exampleMacros ℚ).PID_Z) 0,
      (specPidCtrl (1 / 20 : ℚ)).setSetpoint
        ((specPidCtrl (1 / 20 : ℚ)).construct (exampleMacros ℚ).PID_YAW)
        (normalizeYaw M_PI_double 0)⟩
    (obsAt ℚ true 0 false true) rfl (by norm_num [exampleMacros, obsAt]) rfl
  have ht : (exampleMacros ℚ).PID_FLIGHT_TIMEOUT < (obsAt ℚ true 61 true true).elapsed := by
    norm_num [exampleMacros, obsAt]
  rw [flytoPIDcorrect_armed, flytoPIDcorrect_armed, loop_cons_none _ _ _ _ _ _ _ _ _ _ h0.1,
    loop_cons_none _ _ _ _ _ _ _ _ _ _ h0.1,
    loop_cons_ret _ _ _ _ _ _ _ _ _ _ false
      (by rw [cycle_timeout _ _ _ _ _ _ _ _ _ rfl ht])]
  simp [obsAt, loop_nil]

/-- C2, at the boundary: with exactly 60 s elapsed against a timeout of 60 s
and `reachCheck` reporting arrival, the call returns true. -/
theorem flytoPIDcorrect_arrival_after_timeout_witness :
    (flytoPIDcorrect (specPidCtrl (1 / 20 : ℚ)) M_PI_double (exampleMacros ℚ) true
      0 0 0 0 ([] ++ obsAt ℚ true 60 true true :: [])).result = some true :=
  (flytoPIDcorrect_arrival_after_timeout (specPidCtrl (1 / 20 : ℚ)) M_PI_double
    (exampleMacros ℚ) 0 0 0 0 [] (obsAt ℚ true 60 true true) []
    (by simp [flytoPIDcorrect_armed, loop_nil]) rfl rfl).1
    (by norm_num [exampleMacros, obsAt])

/-- C3, at a concrete run: three passes at 0 s, 30 s and 60 s with failing
dispatch, then a pass at 61 s against a timeout of 60 s: the call returns
false there, after three dispatches. -/
theorem flytoPIDcorrect_dispatch_failure_not_fatal_witness :
    (flytoPIDcorrect (specPidCtrl (1 / 20 : ℚ)) M_PI_double (exampleMacros ℚ) true
      5 0 2 0
      ([obsAt ℚ true 0 false false, obsAt ℚ true 30 false false, obsAt ℚ true 60 false false]
        ++ obsAt ℚ true 61 false false :: [])).result = some false ∧
    (dispatches (flytoPIDcorrect (specPidCtrl (1 / 20 : ℚ)) M_PI_double (exampleMacros ℚ)
      true 5 0 2 0
      ([obsAt ℚ true 0 false false, obsAt ℚ true 30 false false, obsAt ℚ true 60 false false]
        ++ obsAt ℚ true 61 false false :: [])).trace).length = 3 :=
  (flytoPIDcorrect_dispatch_failure_not_fatal (specPidCtrl (1 / 20 : ℚ)) M_PI_double
    (exampleMacros ℚ) 5 0 2 0
    [obsAt ℚ true 0 false false, obsAt ℚ true 30 false false, obsAt ℚ true 60 false false]
    (obsAt ℚ true 61 false false) []
    (by simp [obsAt, exampleMacros]; norm_num) rfl
    (by norm_num [exampleMacros, obsAt])).2

/-- C4, at a concrete run: one pass with a successful dispatch, then a pass
that sees `ros::ok()` false; the call returns false and the only dispatch is
that of the first pass. -/
theorem flytoPIDcorrect_shutdown_witness :
    (flytoPIDcorrect (specPidCtrl (1 / 20 : ℚ)) M_PI_double (exampleMacros ℚ) true
      5 0 2 0 ([obsAt ℚ true 0 false true] ++ obsAt ℚ false 1 false true ::
        [obsAt ℚ true 2 false true])).result = some false ∧
    (flytoPIDcorrect (specPidCtrl (1 / 20 : ℚ)) M_PI_double (exampleMacros ℚ) true
      5 0 2 0 ([obsAt ℚ true 0 false true] ++ obsAt ℚ false 1 false true ::
        [obsAt ℚ true 2 false true])).trace
      = (flytoPIDcorrect (specPidCtrl (1 / 20 : ℚ)) M_PI_double (exampleMacros ℚ) true
          5 0 2 0 [obsAt ℚ true 0 false true]).trace ∧
    dispatches (flytoPIDcorrect (specPidCtrl (1 / 20 : ℚ)) M_PI_double (exampleMacros ℚ) true
      5 0 2 0 ([obsAt ℚ true 0 false true] ++ obsAt ℚ false 1 false true ::
        [obsAt ℚ true 2 false true])).trace
      = dispatches (flytoPIDcorrect (specPidCtrl (1 / 20 : ℚ)) M_PI_double (exampleMacros ℚ)
          true 5 0 2 0 [obsAt ℚ true 0 false true]).trace :=
  flytoPIDcorrect_shutdown (specPidCtrl (1 / 20 : ℚ)) M_PI_double (exampleMacros ℚ) true
    5 0 2 0 [obsAt ℚ true 0 false true] (obsAt ℚ false 1 false true)
    [obsAt ℚ true 2 false true]
    (by
      have h := cycle_continue (specPidCtrl (1 / 20 : ℚ)) M_PI_double (exampleMacros ℚ)
        5 0 2 (normalizeYaw M_PI_double 0)
        ⟨(specPidCtrl (1 / 20 : ℚ)).setSetpoint
            ((specPidCtrl (1 / 20 : ℚ)).construct (exampleMacros ℚ).PID_X) 5,
          (specPidCtrl (1 / 20 : ℚ)).setSetpoint
            ((specPidCtrl (1 / 20 : ℚ)).construct (exampleMacros ℚ).PID_Y) 0,
          (specPidCtrl (1 / 20 : ℚ)).setSetpoint
            ((specPidCtrl (1 / 20 : ℚ)).construct (exampleMacros ℚ).PID_Z) 2,
          (specPidCtrl (1 / 20 : ℚ)).setSetpoint
            ((specPidCtrl (1 / 20 : ℚ)).construct (exampleMacros ℚ).PID_YAW)
            (normalizeYaw M_PI_double 0)⟩
        (obsAt ℚ true 0 false true) rfl (by norm_num [exampleMacros, obsAt]) rfl
      rw [flytoPIDcorrect_armed, loop_cons_none _ _ _ _ _ _ _ _ _ _ h.1]
      rfl)
    rfl

end FlightExamples

/-! ## Lemmas on `initPIDControllers` -/

section ParamLemmas

variable {α : Type} [LinearOrderedField α]

/-- The four calls of `initPIDControllers`, each with the overridden
parameter set of its axis. -/
theorem initPIDControllers_eq (server : String → Option α) :
    initPIDControllers server
      = [(Axis.x, overridden server Axis.x), (Axis.y, overridden server Axis.y),
          (Axis.z, overridden server Axis.z), (Axis.yaw, overridden server Axis.yaw)] :=
  rfl

theorem passedTo_initPIDControllers (server : String → Option α) (a : Axis) :
    passedTo (initPIDControllers server) a = [overridden server a] := by
  rw [initPIDControllers_eq]
  cases a <;> simp [passedTo]

theorem overridden_get (server : String → Option α) (a : Axis) (f : Field) :
    (overridden server a).get f
      = param_get server (paramKey a f) ((defaultParams a).get f) := by
  cases f <;> rfl

/-- The 28 keys are pairwise distinct. -/
theorem paramKey_injective (a a0 : Axis) (f f0 : Field)
    (h : paramKey a f = paramKey a0 f0) : a = a0 ∧ f = f0 := by
  cases a <;> cases f <;> cases a0 <;> cases f0 <;> simp [paramKey] at h ⊢

/-- With `/apoc/pid/x/out_min` set to `1`, the X limits after the overrides
are malformed. -/
theorem malformed_x_out_min_one :
    malformed (overridden (setParam (fun _ => none) "/apoc/pid/x/out_min" (1 : ℚ)) Axis.x) := by
  left
  simp [overridden, param_get, setParam, paramKey, defaultParams]
  norm_num

end ParamLemmas

/-! ## The claims on `initPIDControllers` -/

section ParamClaims

variable {α : Type} [LinearOrderedField α]

/-- C7: for every configuration and each of the 28 fields, the value passed
to the axis's `setPIDctrlParams` (there is exactly one such call) is the
configured value when the field's key is present and the built-in default
otherwise; and setting the key of another field leaves this field's value as
it was. -/
theorem initPIDControllers_field_overrides (server : String → Option α) (a : Axis)
    (f : Field) :
    passedField (initPIDControllers server) a f
      = [match server (paramKey a f) with
          | some v => v
          | none => (defaultParams a).get f] ∧
    ∀ (a0 : Axis) (f0 : Field) (v : α), (a0, f0) ≠ (a, f) →
      passedField (initPIDControllers (setParam server (paramKey a0 f0) v)) a f
        = passedField (initPIDControllers server) a f := by
  constructor
  · simp only [passedField, passedTo_initPIDControllers, List.map_cons, List.map_nil,
      overridden_get, param_get]
  · intro a0 f0 v hne
    have hk : paramKey a f ≠ paramKey a0 f0 := by
      intro h
      obtain ⟨h1, h2⟩ := paramKey_injective a a0 f f0 h
      exact hne (by rw [h1, h2])
    simp only [passedField, passedTo_initPIDControllers, List.map_cons, List.map_nil,
      overridden_get, param_get, setParam, if_neg hk]

/-- C7, at a concrete configuration: with only `/apoc/pid/z/kd` set, to
`1/4`, the Z controller receives the defaults with `kd` replaced, and the X
controller receives its defaults. -/
theorem initPIDControllers_field_overrides_witness :
    passedField (initPIDControllers (setParam (fun _ => none) "/apoc/pid/z/kd" (1 / 4 : ℚ)))
      Axis.z Field.kd = [1 / 4] ∧
    passedField (initPIDControllers (setParam (fun _ => none) "/apoc/pid/z/kd" (1 / 4 : ℚ)))
      Axis.x Field.kd = [0.1] := by
  have h1 := (initPIDControllers_field_overrides
    (setParam (fun _ => none) "/apoc/pid/z/kd" (1 / 4 : ℚ)) Axis.z Field.kd).1
  have h2 := (initPIDControllers_field_overrides
    (setParam (fun _ => none) "/apoc/pid/z/kd" (1 / 4 : ℚ)) Axis.x Field.kd).1
  rw [h1, h2]
  simp [setParam, paramKey, defaultParams, PIDParams.get]

/-- C8 (as stated, refuted): with `/apoc/pid/x/out_min` set to `1`, above the
default `out_max` of `0.5`, the X limits are malformed after the overrides,
and `initPIDControllers` still makes all four `setPIDctrlParams` calls, the
one on `pid_x` with exactly those limits. -/
theorem initPIDControllers_accepts_malformed :
    malformed (overridden (setParam (fun _ => none) "/apoc/pid/x/out_min" (1 : ℚ)) Axis.x) ∧
    initPIDControllers (setParam (fun _ => none) "/apoc/pid/x/out_min" (1 : ℚ))
      = [(Axis.x, ⟨0.8, 0.2, 0.1, 1, 0.5, -0.3, 0.3⟩),
          (Axis.y, ⟨0.8, 0.2, 0.1, -0.5, 0.5, -0.3, 0.3⟩),
          (Axis.z, ⟨1.0, 0.3, 0.15, -0.3, 0.3, -0.2, 0.2⟩),
          (Axis.yaw, ⟨0.6, 0.1, 0.05, -0.2, 0.2, -0.1, 0.1⟩)] := by
  exact ⟨malformed_x_out_min_one, by simp [initPIDControllers, param_get, setParam]⟩

/-- C8 (as amended): `initPIDControllers` validates nothing. For every
configuration in which, after the overrides, an axis has
`out_min ≥ out_max` or `int_min ≥ int_max`, the function still runs to its
end, making its four `setPIDctrlParams` calls, and the one call on that axis
passes exactly the malformed parameter set. -/
theorem initPIDControllers_installs_malformed (server : String → Option α) (a : Axis)
    (h : malformed (overridden server a)) :
    (initPIDControllers server).length = 4 ∧
    passedTo (initPIDControllers server) a = [overridden server a] ∧
    ∃ p, passedTo (initPIDControllers server) a = [p] ∧ malformed p :=
  ⟨rfl, passedTo_initPIDControllers server a,
    overridden server a, passedTo_initPIDControllers server a, h⟩

/-- C8, at the refuting configuration: `/apoc/pid/x/out_min` set to `1`. -/
theorem initPIDControllers_installs_malformed_witness :
    (initPIDControllers (setParam (fun _ => none) "/apoc/pid/x/out_min" (1 : ℚ))).length = 4 ∧
    passedTo (initPIDControllers (setParam (fun _ => none) "/apoc/pid/x/out_min" (1 : ℚ)))
        Axis.x
      = [overridden (setParam (fun _ => none) "/apoc/pid/x/out_min" (1 : ℚ)) Axis.x] ∧
    ∃ p, passedTo (initPIDControllers (setParam (fun _ => none) "/apoc/pid/x/out_min" (1 : ℚ)))
        Axis.x = [p] ∧ malformed p :=
  initPIDControllers_installs_malformed
    (setParam (fun _ => none) "/apoc/pid/x/out_min" (1 : ℚ)) Axis.x
    malformed_x_out_min_one

/-- C10: with no key present, `initPIDControllers` passes the built-in
defaults (X and Y: out ±0.5, int ±0.3; Z: out ±0.3, int ±0.2; Yaw: out ±0.2,
int ±0.1), and every parameter set it passes has `out_min < out_max` and
`int_min < int_max`. -/
theorem initPIDControllers_defaults_well_formed (α : Type) [LinearOrderedField α] :
    initPIDControllers (fun _ => (none : Option α))
      = [(Axis.x, ⟨0.8, 0.2, 0.1, -0.5, 0.5, -0.3, 0.3⟩),
          (Axis.y, ⟨0.8, 0.2, 0.1, -0.5, 0.5, -0.3, 0.3⟩),
          (Axis.z, ⟨1.0, 0.3, 0.15, -0.3, 0.3, -0.2, 0.2⟩),
          (Axis.yaw, ⟨0.6, 0.1, 0.05, -0.2, 0.2, -0.1, 0.1⟩)] ∧
    ∀ (a : Axis) (p : PIDParams α),
      p ∈ passedTo (initPIDControllers (fun _ => (none : Option α))) a →
        p.out_min < p.out_max ∧ p.int_min < p.int_max := by
  refine ⟨rfl, ?_⟩
  intro a p hp
  rw [passedTo_initPIDControllers, List.mem_singleton] at hp
  subst hp
  cases a <;> norm_num [overridden, param_get, defaultParams]

end ParamClaims

/-! ## The claim on the controller state after a failed dispatch -/

section StateClaims

variable {α : Type} [LinearOrderedField α] [FloorRing α]

/-- C9 (as stated, refuted): an armed call to the target `(5, 0, 2, 0)` with
the vehicle at the origin enters the loop with zero integral and previous
error in every controller; after one pass whose dispatch fails, `pid_x` holds
integral `1/4` and previous error `5`, and `pid_z` integral `1/10` and
previous error `2`: the controllers are not in the state of the start of the
pass. The yaw error of this pass is zero. -/
theorem flytoPIDcorrect_failed_dispatch_advances_state :
    (flytoPIDcorrect (specPidCtrl (1 / 20 : ℚ)) M_PI_double (exampleMacros ℚ) true
      5 0 2 0 []).pids
      = some ⟨⟨defaultParams Axis.x, 5, 0, 0⟩, ⟨defaultParams Axis.y, 0, 0, 0⟩,
          ⟨defaultParams Axis.z, 2, 0, 0⟩, ⟨defaultParams Axis.yaw, 0, 0, 0⟩⟩ ∧
    (flytoPIDcorrect (specPidCtrl (1 / 20 : ℚ)) M_PI_double (exampleMacros ℚ) true
      5 0 2 0 [obsAt ℚ true 0 false false]).pids
      = some ⟨⟨defaultParams Axis.x, 5, 1 / 4, 5⟩, ⟨defaultParams Axis.y, 0, 0, 0⟩,
          ⟨defaultParams Axis.z, 2, 1 / 10, 2⟩, ⟨defaultParams Axis.yaw, 0, 0, 0⟩⟩ ∧
    (flytoPIDcorrect (specPidCtrl (1 / 20 : ℚ)) M_PI_double (exampleMacros ℚ) true
      5 0 2 0 [obsAt ℚ true 0 false false]).pids
      ≠ (flytoPIDcorrect (specPidCtrl (1 / 20 : ℚ)) M_PI_double (exampleMacros ℚ) true
          5 0 2 0 []).pids := by
  have hn : normalizeYaw M_PI_double 0 = 0 :=
    normalizeYaw_zero (by norm_num [M_PI_double])
  have h0 := cycle_continue (specPidCtrl (1 / 20 : ℚ)) M_PI_double (exampleMacros ℚ)
    5 0 2 (normalizeYaw M_PI_double 0)
    ⟨(specPidCtrl (1 / 20 : ℚ)).setSetpoint
        ((specPidCtrl (1 / 20 : ℚ)).construct (exampleMacros ℚ).PID_X) 5,
      (specPidCtrl (1 / 20 : ℚ)).setSetpoint
        ((specPidCtrl (1 / 20 : ℚ)).construct (exampleMacros ℚ).PID_Y) 0,
      (specPidCtrl (1 / 20 : ℚ)).setSetpoint
        ((specPidCtrl (1 / 20 : ℚ)).construct (exampleMacros ℚ).PID_Z) 2,
      (specPidCtrl (1 / 20 : ℚ)).setSetpoint
        ((specPidCtrl (1 / 20 : ℚ)).construct (exampleMacros ℚ).PID_YAW)
        (normalizeYaw M_PI_double 0)⟩
    (obsAt ℚ true 0 false false) rfl (by norm_num [exampleMacros, obsAt]) rfl
  rw [flytoPIDcorrect_armed, flytoPIDcorrect_armed, loop_cons_none _ _ _ _ _ _ _ _ _ _ h0.1,
    h0.2.1, loop_nil, loop_nil, hn]
  refine ⟨?_, ?_, ?_⟩
  · simp [specPidCtrl, pidctrl.construct, pidctrl.setSetpoint, exampleMacros]
  · simp [specPidCtrl, pidctrl.construct, pidctrl.setSetpoint, pidctrl.compute, exampleMacros,
      obsAt, clamp, defaultParams, hn]
    norm_num
  · simp [specPidCtrl, pidctrl.construct, pidctrl.setSetpoint, pidctrl.compute, exampleMacros,
      obsAt, clamp, defaultParams, hn]

/-- C9 (as amended): a failed dispatch neither rolls back nor resets the
controllers. For every implementation of `pidctrl` and every pass that
reaches the dispatch and in which `flytoAbsolute` reports failure, the pass
does not return, and each of the four controllers ends the pass in the state
its `compute` call of that pass left, which is the state the same pass leaves
when the dispatch succeeds. The pass calls `compute` four times and ends with
the backoff sleep of 0.1 s and the rate sleep. -/
theorem cycle_failed_dispatch_state {C : Type} (api : PidCtrlClass α C) (M_PI : α)
    (mc : Macros α) (tx ty tz tyaw : α) (pids : Controllers C) (o : CycleObs α)
    (hok : o.ok = true) (ht : o.elapsed ≤ mc.PID_FLIGHT_TIMEOUT) (hr : o.reached = false)
    (hd : o.dispatched = false) :
    (cycle api M_PI mc tx ty tz tyaw pids o).ret = none ∧
    (cycle api M_PI mc tx ty tz tyaw pids o).pids
      = ⟨(api.compute pids.pid_x o.x).2, (api.compute pids.pid_y o.y).2,
          (api.compute pids.pid_z o.z).2,
          (api.compute pids.pid_yaw (normalizeYaw M_PI o.rpy_yaw)).2⟩ ∧
    (cycle api M_PI mc tx ty tz tyaw pids o).pids
      = (cycle api M_PI mc tx ty tz tyaw pids { o with dispatched := true }).pids ∧
    (computes (cycle api M_PI mc tx ty tz tyaw pids o).trace).length = 4 ∧
    (cycle api M_PI mc tx ty tz tyaw pids o).trace.drop 6
      = [Event.durationSleep 0.1, Event.rateSleep mc.PID_CONTROL_RATE] := by
  have h3 := cycle_failed_trace api M_PI mc tx ty tz tyaw pids o hok ht hr hd
  have h1 := cycle_continue api M_PI mc tx ty tz tyaw pids o hok ht hr
  have h2 := cycle_continue api M_PI mc tx ty tz tyaw pids
    { o with dispatched := true } hok ht hr
  refine ⟨h1.1, h1.2.1, ?_, ?_, ?_⟩
  · rw [h1.2.1, h2.2.1]
  · rw [h3]; simp [computes]
  · rw [h3]; rfl

/-- C9, at a concrete pass with the controller of the specification: the
vehicle at the origin, setpoints `(5, 0, 2, 0)`, fresh controllers, the
dispatch failing. The pass does not return and leaves the controllers as a
pass with a successful dispatch does. -/
theorem cycle_failed_dispatch_state_witness :
    (cycle (specPidCtrl (1 / 20 : ℚ)) M_PI_double (exampleMacros ℚ) 5 0 2 0
      ⟨⟨defaultParams Axis.x, 5, 0, 0⟩, ⟨defaultParams Axis.y, 0, 0, 0⟩,
        ⟨defaultParams Axis.z, 2, 0, 0⟩, ⟨defaultParams Axis.yaw, 0, 0, 0⟩⟩
      (obsAt ℚ true 0 false false)).ret = none ∧
    (cycle (specPidCtrl (1 / 20 : ℚ)) M_PI_double (exampleMacros ℚ) 5 0 2 0
      ⟨⟨defaultParams Axis.x, 5, 0, 0⟩, ⟨defaultParams Axis.y, 0, 0, 0⟩,
        ⟨defaultParams Axis.z, 2, 0, 0⟩, ⟨defaultParams Axis.yaw, 0, 0, 0⟩⟩
      (obsAt ℚ true 0 false false)).pids
      = (cycle (specPidCtrl (1 / 20 : ℚ)) M_PI_double (exampleMacros ℚ) 5 0 2 0
          ⟨⟨defaultParams Axis.x, 5, 0, 0⟩, ⟨defaultParams Axis.y, 0, 0, 0⟩,
            ⟨defaultParams Axis.z, 2, 0, 0⟩, ⟨defaultParams Axis.yaw, 0, 0, 0⟩⟩
          { obsAt ℚ true 0 false false with dispatched := true }).pids :=
  ⟨(cycle_failed_dispatch_state (specPidCtrl (1 / 20 : ℚ)) M_PI_double (exampleMacros ℚ)
      5 0 2 0
      ⟨⟨defaultParams Axis.x, 5, 0, 0⟩, ⟨defaultParams Axis.y, 0, 0, 0⟩,
        ⟨defaultParams Axis.z, 2, 0, 0⟩, ⟨defaultParams Axis.yaw, 0, 0, 0⟩⟩
      (obsAt ℚ true 0 false false) rfl (by norm_num [exampleMacros, obsAt]) rfl rfl).1,
    (cycle_failed_dispatch_state (specPidCtrl (1 / 20 : ℚ)) M_PI_double (exampleMacros ℚ)
      5 0 2 0
      ⟨⟨defaultParams Axis.x, 5, 0, 0⟩, ⟨defaultParams Axis.y, 0, 0, 0⟩,
        ⟨defaultParams Axis.z, 2, 0, 0⟩, ⟨defaultParams Axis.yaw, 0, 0, 0⟩⟩
      (obsAt ℚ true 0 false false) rfl (by norm_num [exampleMacros, obsAt]) rfl rfl).2.2.1⟩

end StateClaims

end apoc
